import Mathlib

/-!
Verification development for the hg-agent-fwk agent framework.

File contents are a shallow embedding, in Lean 4, of the parts of the
repository needed by the claims under scrutiny:

* `graal/migration_manager.py` — the migration catalog and the regex-driven
  source rewriting engine (`apply_migration`, `_apply_migration_step`,
  `_create_migration_backup`, `_rollback_migration`);
* `graal/framework_manager.py` — `get_current_version`,
  `get_available_versions`, `update_framework` and its backup/rollback
  helpers;
* `graal/llm/client.py` — `LLMConfig.get_model_name` and `LLMClient.chat`;
* `graal/llm/base.py` — `BaseLLMAgent.process_message`;
* `graal/base.py` — the `POST /chat` handler's request accounting.

Strings are modelled as `List Char` (Python `str` code points). Filesystem,
subprocess and network effects are modelled by explicit state / oracle
parameters; timestamps (used by the Python code only to name backup
directories and to fill `updated_at`) are not modelled.
-/

set_option maxRecDepth 8192

namespace Graal

/-- Python regex `\s` character class for `str` patterns (`re.UNICODE`):
ASCII whitespace, the C1 separators, and the Unicode space characters. -/
def isWS (c : Char) : Bool :=
  c = ' ' || c = '\t' || c = '\n' || c = '\r' || c.val = 11 || c.val = 12 ||
  (28 ≤ c.val && c.val ≤ 31) || c.val = 133 || c.val = 160 || c.val = 5760 ||
  (8192 ≤ c.val && c.val ≤ 8202) || c.val = 8232 || c.val = 8233 ||
  c.val = 8239 || c.val = 8287 || c.val = 12288

/-- Python `pat in line` substring test (used for `'hg-agent-fwk.git' in line`). -/
def containsSub (s pat : List Char) : Bool :=
  match s with
  | [] => pat.isEmpty
  | _ :: t => pat.isPrefixOf s || containsSub t pat

/-- Python `str.split('\n')`. -/
def splitNl (s : List Char) : List (List Char) :=
  match s with
  | [] => [[]]
  | c :: t =>
    if c = '\n' then [] :: splitNl t
    else
      match splitNl t with
      | [] => [[c]]
      | l :: ls => (c :: l) :: ls

/-- Python `'\n'.join(lines)`. -/
def joinNl : List (List Char) → List Char
  | [] => []
  | [l] => l
  | l :: ls => l ++ '\n' :: joinNl ls

/-- Python `str.strip()` (strip whitespace from both ends). -/
def stripWS (s : List Char) : List Char :=
  ((s.dropWhile isWS).reverse.dropWhile isWS).reverse

/-- Python `str.lstrip('v')` (drop every leading `'v'`). -/
def lstripV (s : List Char) : List Char :=
  s.dropWhile (fun c => c = 'v')

/-- Python string `<` comparison: lexicographic on code points. -/
def strLt : List Char → List Char → Bool
  | [], [] => false
  | [], _ :: _ => true
  | _ :: _, [] => false
  | a :: s, b :: t => if a = b then strLt s t else decide (a < b)

/-!
### Regular-expression engine

The migration catalog in `migration_manager.py` uses `re.sub` with four
fixed patterns built from literal runs, `\s*`, `\d+` and `[^)]+`.  Each such
pattern is compiled here into a token list.  For these specific patterns the
greedy backtracking search of Python's `re` is deterministic: every `\s*` /
`\d+` / `[^)]+` is followed either by a literal whose first character the
class cannot match, or by the end of the pattern, so maximal munch with no
backtracking computes exactly the Python match.  `runMatch` implements that
deterministic matcher, consuming a match from the front of the input;
`substFuel` implements the left-to-right scan of `re.sub`, replacing every
non-overlapping occurrence.
-/

/-- One token of a compiled pattern: a literal run, a `X*` class or a `X+`
class. -/
inductive Tok where
  | lit (cs : List Char)
  | star (p : Char → Bool)
  | plus (p : Char → Bool)

/-- Result of feeding one character to the matcher: hard mismatch, a match
that is already complete without consuming the character, or a continuation
state. `cont []` means the character completed the match. -/
inductive StepRes where
  | fail
  | done
  | cont (toks : List Tok)

/-- Feed one character to a matcher state (a list of still-pending tokens). -/
def mstep : List Tok → Char → StepRes
  | [], _ => .done
  | .lit [] :: rest, c => mstep rest c
  | .lit (x :: l) :: rest, c =>
    if x = c then (if l.isEmpty then .cont rest else .cont (.lit l :: rest))
    else .fail
  | .star p :: rest, c => if p c then .cont (.star p :: rest) else mstep rest c
  | .plus p :: rest, c => if p c then .cont (.star p :: rest) else .fail

/-- Whether the remaining tokens can match the empty string. -/
def nullable : List Tok → Bool
  | [] => true
  | .lit [] :: rest => nullable rest
  | .lit (_ :: _) :: _ => false
  | .star _ :: rest => nullable rest
  | .plus _ :: _ => false

/-- Match the token list against the front of `s`, returning the consumed
part and the remainder. Greedy and deterministic (see module comment). -/
def runMatch : List Tok → List Char → Option (List Char × List Char)
  | toks, [] => if nullable toks then some ([], []) else none
  | toks, c :: t =>
    match mstep toks c with
    | .fail => none
    | .done => some ([], c :: t)
    | .cont [] => some ([c], t)
    | .cont toks2 => (runMatch toks2 t).map (fun p => (c :: p.1, p.2))

/-- A compiled `re.sub` rule: the pattern tokens, and the replacement as a
function of the consumed text (which subsumes `\1` group references for the
patterns in the catalog). -/
structure RePat where
  toks : List Tok
  repl : List Char → List Char

/-- Fuelled left-to-right scan of `re.sub`: at each position try to match;
on a match emit the replacement and continue after the consumed text,
otherwise keep the character. Fuel `s.length` suffices because every
catalog pattern consumes at least one character. -/
def substFuel (pat : RePat) : Nat → List Char → List Char
  | 0, s => s
  | _ + 1, [] => []
  | fuel + 1, c :: t =>
    match runMatch pat.toks (c :: t) with
    | some (con, rem) => pat.repl con ++ substFuel pat fuel rem
    | none => c :: substFuel pat fuel t

/-- `re.sub(pattern, repl, s, flags=re.MULTILINE)` for a catalog pattern
(no anchors occur, so the MULTILINE flag is inert). -/
def reSub (pat : RePat) (s : List Char) : List Char :=
  substFuel pat s.length s

/-- Does running the matcher state over the (finite) text `a` hit a definite
mismatch before `a` is exhausted?  If so, the state can match no input that
begins with `a`, whatever follows. -/
def failsWithin : List Tok → List Char → Bool
  | _, [] => false
  | toks, c :: t =>
    match mstep toks c with
    | .fail => true
    | .done => false
    | .cont [] => false
    | .cont toks2 => failsWithin toks2 t

/-- All matcher states reachable from a token list: for every literal, each
of its suffixes paired with the following tokens, plus the token-list tails
themselves. -/
def tokStates : List Tok → List (List Tok)
  | [] => [[]]
  | .lit cs :: rest =>
    (List.range cs.length).map (fun j => .lit (cs.drop j) :: rest) ++ tokStates rest
  | .star p :: rest => (.star p :: rest) :: tokStates rest
  | .plus p :: rest => (.plus p :: rest) :: (.star p :: rest) :: tokStates rest

/-- No suffix of `t` begins with a match of the token list: scanning `t`
with `reSub` for this pattern would change nothing. -/
def FreeT (toks : List Tok) (t : List Char) : Prop :=
  ∀ u, u <:+ t → runMatch toks u = none

/-- Well-formedness of a compiled pattern: every literal run is nonempty
(true of all catalog patterns). -/
def noEmptyLit : List Tok → Bool
  | [] => true
  | .lit [] :: _ => false
  | .lit (_ :: _) :: rest => noEmptyLit rest
  | .star _ :: rest => noEmptyLit rest
  | .plus _ :: rest => noEmptyLit rest

/-!
### The compiled catalog patterns

`pat1`/`pat2` are the two steps of the `1.0.0 → 1.1.0` migration,
`pat3a`/`pat3b` the two steps of the `1.2.0 → 1.3.0` migration.
-/

/-- Search regex `async def process\(` — a pure literal. -/
def p1lit : List Char := ("async def process(").data

/-- Replacement `async def process_message(` of step `update_process_method`. -/
def repl1 : List Char := ("async def process_message(").data

/-- Step `update_process_method` of the `1.0.0 → 1.1.0` migration. -/
def pat1 : RePat := ⟨[.lit p1lit], fun _ => repl1⟩

/-- First literal chunk of
`async def process_message\(\s*self,\s*message: str,\s*context: Dict\[str, Any\]\s*\)`. -/
def p2c1 : List Char := ("async def process_message(").data

/-- Second literal chunk of the `add_user_id_param` search regex. -/
def p2c2 : List Char := ("self,").data

/-- Third literal chunk of the `add_user_id_param` search regex. -/
def p2c3 : List Char := ("message: str,").data

/-- Fourth literal chunk of the `add_user_id_param` search regex. -/
def p2c4 : List Char := ("context: Dict[str, Any]").data

/-- Final literal chunk `\)` of the `add_user_id_param` search regex. -/
def p2c5 : List Char := (")").data

/-- Replacement of step `add_user_id_param`. -/
def repl2 : List Char :=
  ("async def process_message(self, message: str, context: Dict[str, Any], user_id: Optional[str] = None, conversation_id: Optional[str] = None)").data

/-- Step `add_user_id_param` of the `1.0.0 → 1.1.0` migration: the literal
chunks of the regex separated by `\s*`. -/
def pat2 : RePat :=
  ⟨[.lit p2c1, .star isWS, .lit p2c2, .star isWS, .lit p2c3, .star isWS,
    .lit p2c4, .star isWS, .lit p2c5], fun _ => repl2⟩

/-- Step `rename_port_config` of the `1.2.0 → 1.3.0` migration:
`port=(\d+)` → `server_port=\1`.  Since group 1 is everything after the
5-character literal `port=`, the replacement is `server_` prepended to the
whole consumed text.  (`\d` is modelled as the ASCII digits; the development
only evaluates this pattern on ASCII inputs.) -/
def pat3a : RePat :=
  ⟨[.lit (("port=").data), .plus (fun c => c.isDigit)],
   fun con => ("server_").data ++ con⟩

/-- Step `add_agent_type` of the `1.2.0 → 1.3.0` migration:
`(AgentConfig\([^)]+)\)` → `\1,\n        agent_type="conversational"\n    )`.
Group 1 is the consumed text minus its final `)`. -/
def pat3b : RePat :=
  ⟨[.lit (("AgentConfig(").data), .plus (fun c => !(c = ')')), .lit [')']],
   fun con => con.dropLast ++ (",\n        agent_type=\"conversational\"\n    )").data⟩

/-!
### Migration manager (`graal/migration_manager.py`)

The agent working tree is modelled by the four files the migration manager
reads or writes (`_create_migration_backup`'s list, which includes the glob
target `app/main.py` of every catalog step).  Every present file is a
regular file, and file I/O does not fail, so the `except` branches of
`_apply_migration_step` / `apply_migration` are unreachable in the model.
-/

/-- The files of an agent working tree that the migration manager touches. -/
inductive AgentFile where
  | mainPy
  | requirementsTxt
  | frameworkLock
  | claudeMd
deriving DecidableEq

/-- Path of each modelled file, relative to the agent root. -/
def AgentFile.path : AgentFile → List Char
  | .mainPy => ("app/main.py").data
  | .requirementsTxt => ("requirements.txt").data
  | .frameworkLock => ("framework.lock").data
  | .claudeMd => ("CLAUDE.md").data

/-- All modelled files, in a fixed enumeration order. -/
def allAgentFiles : List AgentFile :=
  [.mainPy, .requirementsTxt, .frameworkLock, .claudeMd]

/-- The modelled agent working tree: content of each file, when present. -/
structure FS where
  mainPy : Option (List Char)
  requirementsTxt : Option (List Char)
  frameworkLock : Option (List Char)
  claudeMd : Option (List Char)
deriving DecidableEq

/-- Read a file. -/
def FS.get (fs : FS) : AgentFile → Option (List Char)
  | .mainPy => fs.mainPy
  | .requirementsTxt => fs.requirementsTxt
  | .frameworkLock => fs.frameworkLock
  | .claudeMd => fs.claudeMd

/-- Write (or remove) a file. -/
def FS.set (fs : FS) : AgentFile → Option (List Char) → FS
  | .mainPy, v => { fs with mainPy := v }
  | .requirementsTxt, v => { fs with requirementsTxt := v }
  | .frameworkLock, v => { fs with frameworkLock := v }
  | .claudeMd, v => { fs with claudeMd := v }

/-- `Path.glob` for the catalog's file patterns.  Every catalog step uses
the wildcard-free pattern `app/main.py`, for which glob returns exactly the
named path when it exists. -/
def globFiles (filePattern : List Char) (fs : FS) : List AgentFile :=
  allAgentFiles.filter (fun f => f.path == filePattern && (fs.get f).isSome)

/-- `MigrationStep` (dataclass): `search_pattern`/`replace_pattern` are kept
in compiled form as `search : RePat`. -/
structure MigrationStep where
  name : List Char
  description : List Char
  file_pattern : List Char
  search : RePat
  required : Bool := true

/-- `FrameworkMigration` (dataclass). -/
structure FrameworkMigration where
  from_version : List Char
  to_version : List Char
  breaking_changes : List (List Char)
  migration_steps : List MigrationStep
  changelog : List Char := []

/-- `FrameworkMigration.is_compatible`. -/
def FrameworkMigration.is_compatible (m : FrameworkMigration)
    (current_version target_version : List Char) : Bool :=
  m.from_version == current_version && m.to_version == target_version

/-- Catalog entry `1.0.0 → 1.1.0` of `_load_migrations`. -/
def migration_1_0_0_to_1_1_0 : FrameworkMigration where
  from_version := ("1.0.0").data
  to_version := ("1.1.0").data
  breaking_changes :=
    [("Renamed BaseAgent.process() to BaseAgent.process_message()").data,
     ("Added required user_id parameter to process_message()").data]
  migration_steps :=
    [{ name := ("update_process_method").data
       description := ("Rename process() to process_message()").data
       file_pattern := ("app/main.py").data
       search := pat1 },
     { name := ("add_user_id_param").data
       description := ("Add user_id parameter to process_message()").data
       file_pattern := ("app/main.py").data
       search := pat2 }]

/-- Catalog entry `1.1.0 → 1.2.0` of `_load_migrations` (no steps). -/
def migration_1_1_0_to_1_2_0 : FrameworkMigration where
  from_version := ("1.1.0").data
  to_version := ("1.2.0").data
  breaking_changes :=
    [("Framework self-update capabilities added").data,
     ("New endpoints /fwk/* available automatically").data]
  migration_steps := []
  changelog :=
    ("Added self-update system with /fwk/* endpoints. No code changes required for existing agents.").data

/-- Catalog entry `1.2.0 → 1.3.0` of `_load_migrations`. -/
def migration_1_2_0_to_1_3_0 : FrameworkMigration where
  from_version := ("1.2.0").data
  to_version := ("1.3.0").data
  breaking_changes :=
    [("AgentConfig.port is now AgentConfig.server_port").data,
     ("New required field AgentConfig.agent_type").data]
  migration_steps :=
    [{ name := ("rename_port_config").data
       description := ("Rename port to server_port in AgentConfig").data
       file_pattern := ("app/main.py").data
       search := pat3a },
     { name := ("add_agent_type").data
       description := ("Add required agent_type field").data
       file_pattern := ("app/main.py").data
       search := pat3b }]

/-- `MigrationManager._load_migrations()`: the static catalog. -/
def migrations : List FrameworkMigration :=
  [migration_1_0_0_to_1_1_0, migration_1_1_0_to_1_2_0, migration_1_2_0_to_1_3_0]

/-- `MigrationManager.find_migration`. -/
def find_migration (current_version target_version : List Char) :
    Option FrameworkMigration :=
  migrations.find? (fun m => m.is_compatible current_version target_version)

/-- One entry of `changes_applied` / `failed_steps` in a migration result
(for `failed_steps` the `details` field holds the error text). -/
structure ChangeRec where
  step : List Char
  description : List Char
  details : List Char
deriving DecidableEq

/-- The result dictionary of `apply_migration`; `Option` fields mirror key
presence in the respective branches.  The `backup_path` key (a timestamped
path string) is not modelled. -/
structure MigResult where
  success : Bool
  migration_required : Bool
  message : Option (List Char) := none
  changes_applied : Option (List ChangeRec) := none
  failed_steps : Option (List ChangeRec) := none
  error : Option (List Char) := none
  failed_step : Option (List Char) := none
  rollback_performed : Option Bool := none
  breaking_changes : Option (List (List Char)) := none
  changelog : Option (List Char) := none
deriving DecidableEq

/-- Step-success message of `_apply_migration_step` when nothing changed. -/
def noChangesMsg : List Char :=
  ("No changes needed (patterns already up to date)").data

/-- Step-success message when the catalog's single target file was
modified. -/
def modifiedMainPyMsg : List Char :=
  ("Modified files: ").data ++ ("app/main.py").data

/-- `', '.join` of modified relative paths. -/
def joinComma : List (List Char) → List Char
  | [] => []
  | [l] => l
  | l :: ls => l ++ (", ").data ++ joinComma ls

/-- `MigrationManager._apply_migration_step`: glob the step's file pattern,
regex-replace in every matched file, write back changed files; report
failure when no file matches, success with a modified-files or
no-changes-needed message otherwise. -/
def apply_migration_step (step : MigrationStep) (fs : FS) :
    (Bool × List Char) × FS :=
  let files := globFiles step.file_pattern fs
  if files.isEmpty then
    ((false, ("No files found matching pattern: ").data ++ step.file_pattern), fs)
  else
    let res := files.foldl
      (fun (acc : List (List Char) × FS) f =>
        match acc.2.get f with
        | none => acc
        | some content =>
          let newContent := reSub step.search content
          if newContent = content then acc
          else (acc.1 ++ [f.path], acc.2.set f (some newContent)))
      ([], fs)
    if res.1.isEmpty then ((true, noChangesMsg), res.2)
    else ((true, ("Modified files: ").data ++ joinComma res.1), res.2)

/-- `MigrationManager._create_migration_backup`: copy each of the four key
files that exists.  In this model the backup is the captured snapshot of
those files (the timestamped directory name is not modelled). -/
def create_migration_backup (fs : FS) : FS := fs

/-- `MigrationManager._rollback_migration`: write every file present in the
backup back over the agent root; files not in the backup are untouched. -/
def rollback_migration (backup fs : FS) : FS where
  mainPy := backup.mainPy.or fs.mainPy
  requirementsTxt := backup.requirementsTxt.or fs.requirementsTxt
  frameworkLock := backup.frameworkLock.or fs.frameworkLock
  claudeMd := backup.claudeMd.or fs.claudeMd

/-- The step loop of `apply_migration`: apply each step in order, a failing
required step rolls back from the backup and returns failure with
`rollback_performed = true`; a failing non-required step is recorded and
skipped. -/
def runSteps (curV tgtV : List Char) (m : FrameworkMigration) (backup : FS) :
    List MigrationStep → FS → List ChangeRec → List ChangeRec → MigResult × FS
  | [], fs, applied, failed =>
    ({ success := true
       migration_required := true
       message := some ((("Migration ").data ++ curV ++ (" → ").data ++ tgtV
         ++ (" completed successfully").data))
       breaking_changes := some m.breaking_changes
       changes_applied := some applied
       failed_steps := some failed }, fs)
  | step :: rest, fs, applied, failed =>
    let out := apply_migration_step step fs
    if out.1.1 then
      runSteps curV tgtV m backup rest out.2
        (applied ++ [⟨step.name, step.description, out.1.2⟩]) failed
    else if step.required then
      ({ success := false
         migration_required := true
         error := some (("Required migration step failed: ").data ++ step.description)
         failed_step := some step.name
         rollback_performed := some true }, rollback_migration backup out.2)
    else
      runSteps curV tgtV m backup rest out.2 applied
        (failed ++ [⟨step.name, step.description, out.1.2⟩])

/-- `MigrationManager.apply_migration`.  The final `except` branch of the
Python function is unreachable in this model (no I/O errors). -/
def apply_migration (current_version target_version : List Char) (fs : FS) :
    MigResult × FS :=
  match find_migration current_version target_version with
  | none =>
    ({ success := true
       migration_required := false
       message := some ((("No migration needed for ").data ++ current_version
         ++ (" → ").data ++ target_version))
       changes_applied := some [] }, fs)
  | some m =>
    if m.migration_steps.isEmpty then
      ({ success := true
         migration_required := false
         message := some ((("Version ").data ++ target_version
           ++ (" has new features but no code changes required").data))
         changelog := some m.changelog
         breaking_changes := some m.breaking_changes }, fs)
    else
      let backup := create_migration_backup fs
      runSteps current_version target_version m backup m.migration_steps fs [] []

/-!
### Framework manager (`graal/framework_manager.py`)
-/

/-- State of `framework.lock` as seen by `get_current_version`: present and
readable, absent, or present but failing to read. -/
inductive LockState where
  | absent
  | readable (content : List Char)
  | unreadable

/-- `FrameworkManager.get_current_version`: read the lock file, `strip()`
whitespace and `lstrip('v')`; `1.0.0` if the file does not exist; the
literal `unknown` if reading raises. -/
def get_current_version : LockState → List Char
  | .readable content => lstripV (stripWS content)
  | .absent => ("1.0.0").data
  | .unreadable => ("unknown").data

/-- `get_current_version` over the modelled file system (which only tracks
presence/absence, so the unreadable case does not arise). -/
def getCurrentVersionFS (fs : FS) : List Char :=
  match fs.frameworkLock with
  | some content => lstripV (stripWS content)
  | none => ("1.0.0").data

/-- The substring `'hg-agent-fwk.git' in line` tested by
`_update_requirements_file`. -/
def fwkGitMarker : List Char := ("hg-agent-fwk.git").data

/-- The rewritten framework line pinned to the target tag. -/
def newFwkLine (target_tag : List Char) : List Char :=
  ("git+https://github.com/Holy-Bird-Animation-Studio/hg-agent-fwk.git@").data
    ++ target_tag

/-- `FrameworkManager._update_requirements_file`: raises FileNotFoundError
(`str(e) = "requirements.txt not found"`) when the manifest is absent,
raises ValueError (`"Framework line not found in requirements.txt"`) when no
line contains the marker, otherwise replaces every marker line and writes
the file back. -/
def update_requirements_file (target_tag : List Char) (fs : FS) :
    Except (List Char) FS :=
  match fs.requirementsTxt with
  | none => .error (("requirements.txt not found").data)
  | some content =>
    let lines := splitNl content
    if lines.any (fun line => containsSub line fwkGitMarker) then
      .ok (fs.set .requirementsTxt (some (joinNl (lines.map (fun line =>
        if containsSub line fwkGitMarker then newFwkLine target_tag else line)))))
    else .error (("Framework line not found in requirements.txt").data)

/-- `FrameworkManager._create_backup`: the backup directory receives copies
of `requirements.txt` and `framework.lock`, each if present — and nothing
else.  The timestamped directory name is not modelled. -/
structure FwkBackup where
  requirementsTxt : Option (List Char)
  frameworkLock : Option (List Char)

/-- Take the pre-update backup. -/
def create_backup (fs : FS) : FwkBackup :=
  ⟨fs.requirementsTxt, fs.frameworkLock⟩

/-- The file-restore half of `_rollback_from_backup`: every file found in
the backup directory is copied back over the agent root (the subsequent
reinstall is the pip oracle, handled by the caller). -/
def restore_backup (b : FwkBackup) (fs : FS) : FS :=
  { fs with
      requirementsTxt := b.requirementsTxt.or fs.requirementsTxt
      frameworkLock := b.frameworkLock.or fs.frameworkLock }

/-- Environment of `update_framework` beyond the file system: whether
`pip install` succeeds (`_reinstall_framework`; `pipErr` is the captured
stderr on failure) and the `success` flag of `_run_tests` (which returns a
dict and never raises; only its `success` key is consulted). -/
structure World where
  fs : FS
  pipOk : Bool
  pipErr : List Char
  testsOk : Bool

/-- `UpdateResult` (pydantic model); `updated_at` is not modelled and
`test_results` is modelled by the `success` flag of the test-results dict,
the only key the update flow consults. -/
structure UpdateResult where
  success : Bool
  from_version : List Char
  to_version : List Char
  test_results : Option Bool := none
  rollback_available : Bool := false
  error_message : Option (List Char) := none
  migration_applied : Option Bool := none
  migration_changes : Option (List ChangeRec) := none
  breaking_changes : Option (List (List Char)) := none
  migration_message : Option (List Char) := none
deriving DecidableEq

/-- `FrameworkManager.update_framework`.  The migration-info consultation at
the top only logs and is omitted.  The `try` body runs: manifest rewrite,
reinstall (pip oracle), `apply_migration`, lock-file write, optional test
run with rollback-and-return on test failure; any raise reaches the outer
`except`, which attempts a rollback (file restore plus reinstall — the same
pip oracle, so a failed pip makes the rollback fail too and
`rollback_available = false`) and returns a failed `UpdateResult` carrying
`str(e)`. -/
def update_framework (target_version : List Char) (run_tests : Bool)
    (w : World) : UpdateResult × FS :=
  let current := getCurrentVersionFS w.fs
  let target_tag :=
    if target_version.head? = some 'v' then target_version
    else 'v' :: target_version
  let target_clean := lstripV target_version
  let backup := create_backup w.fs
  match update_requirements_file target_tag w.fs with
  | .error e =>
    ({ success := false
       from_version := current
       to_version := target_clean
       rollback_available := w.pipOk
       error_message := some e }, restore_backup backup w.fs)
  | .ok fs1 =>
    if w.pipOk = false then
      ({ success := false
         from_version := current
         to_version := target_clean
         rollback_available := false
         error_message := some (("pip install failed: ").data ++ w.pipErr) },
       restore_backup backup fs1)
    else
      let migOut := apply_migration current target_clean fs1
      let fs3 := migOut.2.set .frameworkLock (some (target_tag ++ ['\n']))
      if run_tests && !w.testsOk then
        ({ success := false
           from_version := current
           to_version := target_clean
           test_results := some false
           rollback_available := true
           error_message :=
             some (("Tests failed after update, automatically rolled back").data) },
         restore_backup backup fs3)
      else
        ({ success := true
           from_version := current
           to_version := target_clean
           test_results := if run_tests then some true else none
           rollback_available := true
           migration_applied := some migOut.1.migration_required
           migration_changes := some (migOut.1.changes_applied.getD [])
           breaking_changes := some (migOut.1.breaking_changes.getD [])
           migration_message := some (migOut.1.message.getD []) }, fs3)

/-- `FrameworkVersion` (pydantic model). -/
structure FrameworkVersion where
  tag : List Char
  version : List Char
  release_date : Option (List Char) := none
  changelog : List Char := []
  is_prerelease : Bool := false
deriving DecidableEq

/-- Release metadata for one tag, as returned by `_get_release_info` when
the release exists (`{}` — `none` here — otherwise). -/
structure RelInfo where
  published_at : Option (List Char)
  body : List Char
  prerelease : Bool

/-- Stable descending insertion by the `version` string under plain string
comparison; `insertDescV`/`sortDescV` together model
`versions.sort(key=lambda v: v.version, reverse=True)`. -/
def insertDescV (x : FrameworkVersion) :
    List FrameworkVersion → List FrameworkVersion
  | [] => [x]
  | y :: ys =>
    if strLt x.version y.version then y :: insertDescV x ys else x :: y :: ys

/-- Stable descending sort by the `version` string. -/
def sortDescV (l : List FrameworkVersion) : List FrameworkVersion :=
  l.foldr insertDescV []

/-- `FrameworkManager.get_available_versions`, successful-path: one
`FrameworkVersion` per tag (metadata via the release oracle), then the
descending plain-string sort.  Network failure (which returns `[]`) is not
modelled. -/
def get_available_versions (tags : List (List Char))
    (relInfo : List Char → Option RelInfo) : List FrameworkVersion :=
  sortDescV (tags.map (fun tagName =>
    let info := relInfo tagName
    { tag := tagName
      version := lstripV tagName
      release_date := info.bind (fun i => i.published_at)
      changelog := (info.map (fun i => i.body)).getD []
      is_prerelease := (info.map (fun i => i.prerelease)).getD false }))

/-!
### LLM layer (`graal/llm/client.py`, `graal/llm/base.py`)
-/

/-- `LLMProvider`. -/
inductive LLMProvider where
  | anthropic
  | openai
deriving DecidableEq

/-- `provider.value`. -/
def LLMProvider.value : LLMProvider → List Char
  | .anthropic => ("anthropic").data
  | .openai => ("openai").data

/-- The fixed default model table `LLMConfig.models`. -/
def modelsTable : List (List Char × List (List Char × List Char)) :=
  [(("anthropic").data,
    [(("fast").data, ("claude-3-haiku-20240307").data),
     (("smart").data, ("claude-3-sonnet-20240229").data),
     (("premium").data, ("claude-3-opus-20240229").data)]),
   (("openai").data,
    [(("fast").data, ("gpt-3.5-turbo").data),
     (("smart").data, ("gpt-4-turbo-preview").data),
     (("premium").data, ("gpt-4").data)])]

/-- `LLMConfig.get_model_name`:
`self.models.get(self.provider.value, {}).get(self.model_tier, "claude-3-haiku-20240307")`. -/
def get_model_name (provider : LLMProvider) (model_tier : List Char) :
    List Char :=
  (((modelsTable.lookup provider.value).getD []).lookup model_tier).getD
    (("claude-3-haiku-20240307").data)

/-- The two raise sites of `LLMClient.chat`: the timeout branch and the
generic wrap branch (Python raises bare `Exception`s distinguished only by
the branch; the constructor records which branch fired). -/
inductive LLMErr where
  | timeout (msg : List Char)
  | wrapped (msg : List Char)
deriving DecidableEq

/-- Message text of an `LLMClient.chat` error. -/
def LLMErr.msg : LLMErr → List Char
  | .timeout m => m
  | .wrapped m => m

/-- Behaviour of the provider adapter under `asyncio.wait_for`: either the
call does not complete within the bound, or it completes with a result or a
raised error (whose `str(e)` is carried). -/
inductive ProviderOutcome where
  | timesOut
  | completes (r : Except (List Char) (List Char))

/-- `LLMClient.chat`: `timeoutStr` is the Python rendering
`f"{config.timeout_seconds}"` of the configured float bound (float
formatting is abstracted into this parameter). -/
def llm_chat (timeoutStr : List Char) (o : ProviderOutcome) :
    Except LLMErr (List Char) :=
  match o with
  | .timesOut =>
    .error (.timeout (("LLM request timeout after ").data ++ timeoutStr ++ ("s").data))
  | .completes (.error e) => .error (.wrapped (("LLM error: ").data ++ e))
  | .completes (.ok r) => .ok r

/-- `BaseLLMAgent.get_system_prompt` (the default f-string template). -/
def get_system_prompt (name description : List Char) : List Char :=
  ("You are ").data ++ name ++ (", a specialized AI assistant.\n\nDescription: ").data
    ++ description
    ++ ("\n\nYour role is to help users with tasks related to your specialization. Be helpful, accurate, and professional in your responses. Always stay in character as ").data
    ++ name
    ++ (".\n\nGuidelines:\n- Provide clear, actionable responses\n- Ask clarifying questions when needed\n- Acknowledge limitations honestly\n- Maintain a friendly but professional tone\n").data

/-- An apostrophe, spliced into the apology text as a character. -/
def apos : Char := Char.ofNat 39

/-- The fixed fallback apology of `BaseLLMAgent.process_message`. -/
def fallback_response (name : List Char) : List Char :=
  ("I apologize, but I").data ++ [apos]
    ++ ("m experiencing technical difficulties. As ").data ++ name
    ++ (", I").data ++ [apos]
    ++ ("m temporarily unable to process your request. Please try again later.").data

/-- `BaseLLMAgent.process_message`: the try body computes the system prompt
(an override may raise — entered as an `Except` oracle) and calls
`llm_client.chat` on it (outcome entered as an oracle keyed by the prompt);
any error is caught and the fixed apology naming the agent is returned. -/
def process_message_llm (name : List Char)
    (promptOutcome : Except (List Char) (List Char))
    (chatOutcome : List Char → Except LLMErr (List Char)) : List Char :=
  match promptOutcome with
  | .error _ => fallback_response name
  | .ok prompt =>
    match chatOutcome prompt with
    | .error _ => fallback_response name
    | .ok r => r

/-!
### Base agent chat route (`graal/base.py`)
-/

/-- The request-accounting state of a `BaseAgent` touched by `POST /chat`;
time is abstract. -/
structure AgentState where
  request_count : Nat
  last_request_time : Option Nat
deriving DecidableEq

/-- Wire reply of the chat route (timestamp / processing time / context map
omitted). -/
structure ChatReply where
  response : List Char
  agent_name : List Char
deriving DecidableEq

/-- Outcome at the HTTP layer: a reply, or an HTTPException status+detail. -/
inductive ChatHTTP where
  | ok (r : ChatReply)
  | serverError (status : Nat) (detail : List Char)
deriving DecidableEq

/-- The `POST /chat` handler body of `BaseAgent._register_routes`, entered
only after wire-model validation: it records the arrival time and
increments the request counter, then runs `process_message` (outcome as
oracle); a raise becomes `HTTPException(500, "Processing error: ...")`. -/
def chat_handler (agentName : List Char) (st : AgentState) (now : Nat)
    (processOutcome : Except (List Char) (List Char)) : AgentState × ChatHTTP :=
  let st2 : AgentState :=
    { request_count := st.request_count + 1, last_request_time := some now }
  match processOutcome with
  | .ok text => (st2, .ok ⟨text, agentName⟩)
  | .error e => (st2, .serverError 500 (("Processing error: ").data ++ e))

/-!
## Lemmas about the matcher and the substitution scan
-/

theorem substFuel_nil (pat : RePat) : ∀ f, substFuel pat f [] = []
  | 0 => rfl
  | _ + 1 => rfl

theorem runMatch_nil_none (toks : List Tok) (hn : nullable toks = false) :
    runMatch toks [] = none := by
  simp [runMatch, hn]

theorem runMatch_eq_append :
    ∀ (s : List Char) (toks : List Tok) (con rem : List Char),
      runMatch toks s = some (con, rem) → s = con ++ rem := by
  intro s
  induction s with
  | nil =>
    intro toks con rem h
    by_cases hn : nullable toks
    · simp [runMatch, hn] at h
      simp [h.1, h.2]
    · simp [runMatch, hn] at h
  | cons c t ih =>
    intro toks con rem h
    simp only [runMatch] at h
    cases hm : mstep toks c with
    | fail => rw [hm] at h; simp at h
    | done =>
      rw [hm] at h
      simp at h
      simp [h.1, h.2]
    | cont toks2 =>
      cases toks2 with
      | nil =>
        rw [hm] at h
        simp at h
        simp [← h.1, ← h.2]
      | cons a b =>
        rw [hm] at h
        simp only [Option.map_eq_some'] at h
        rcases h with ⟨⟨con2, rem2⟩, h1, h2⟩
        have ht := ih (a :: b) con2 rem2 h1
        cases h2
        simp [ht]

theorem mstep_done_nullable :
    ∀ (toks : List Tok) (c : Char), mstep toks c = .done → nullable toks = true := by
  intro toks
  induction toks with
  | nil => intro c _; rfl
  | cons tk rest ih =>
    intro c h
    cases tk with
    | lit cs =>
      cases cs with
      | nil => exact ih c h
      | cons x l =>
        simp only [mstep] at h
        by_cases hx : x = c
        · simp [hx] at h
          by_cases hl : l = [] <;> simp [hl] at h
        · simp [hx] at h
    | star p =>
      simp only [mstep] at h
      by_cases hp : p c
      · simp [hp] at h
      · simp [hp] at h
        exact ih c h
    | plus p =>
      simp only [mstep] at h
      by_cases hp : p c <;> simp [hp] at h

theorem runMatch_con_ne_nil (toks : List Tok) (hn : nullable toks = false)
    (s con rem : List Char) (h : runMatch toks s = some (con, rem)) :
    con ≠ [] := by
  cases s with
  | nil => rw [runMatch_nil_none toks hn] at h; cases h
  | cons c t =>
    simp only [runMatch] at h
    cases hm : mstep toks c with
    | fail => rw [hm] at h; simp at h
    | done => rw [mstep_done_nullable toks c hm] at hn; cases hn
    | cont toks2 =>
      cases toks2 with
      | nil =>
        rw [hm] at h; simp at h
        simp [← h.1]
      | cons a b =>
        rw [hm] at h
        simp only [Option.map_eq_some'] at h
        rcases h with ⟨⟨con2, rem2⟩, _, h2⟩
        cases h2
        simp

theorem runMatch_rem_lt (toks : List Tok) (hn : nullable toks = false)
    (s con rem : List Char) (h : runMatch toks s = some (con, rem)) :
    rem.length < s.length := by
  have hs := runMatch_eq_append s toks con rem h
  have hc := runMatch_con_ne_nil toks hn s con rem h
  subst hs
  cases con with
  | nil => exact absurd rfl hc
  | cons a b => simp [List.length_append]; omega

theorem substFuel_eq_of_le (pat : RePat) (hn : nullable pat.toks = false) :
    ∀ (f g : Nat) (s : List Char), s.length ≤ f → s.length ≤ g →
      substFuel pat f s = substFuel pat g s := by
  intro f
  induction f with
  | zero =>
    intro g s hf _
    have : s = [] := List.length_eq_zero.mp (Nat.le_zero.mp hf)
    subst this
    simp [substFuel_nil]
  | succ f ih =>
    intro g s hf hg
    cases s with
    | nil => simp [substFuel_nil]
    | cons c t =>
      cases g with
      | zero => simp at hg
      | succ g =>
        simp only [substFuel]
        cases hm : runMatch pat.toks (c :: t) with
        | none =>
          simp only []
          have h1 : t.length ≤ f := by simp at hf; omega
          have h2 : t.length ≤ g := by simp at hg; omega
          rw [ih g t h1 h2]
        | some p =>
          rcases p with ⟨con, rem⟩
          simp only []
          have hlt := runMatch_rem_lt pat.toks hn (c :: t) con rem hm
          have h1 : rem.length ≤ f := by simp at hf hlt; omega
          have h2 : rem.length ≤ g := by simp at hg hlt; omega
          rw [ih g rem h1 h2]

theorem reSub_nil (pat : RePat) : reSub pat [] = [] := rfl

theorem reSub_match (pat : RePat) (hn : nullable pat.toks = false)
    {c : Char} {t con rem : List Char}
    (h : runMatch pat.toks (c :: t) = some (con, rem)) :
    reSub pat (c :: t) = pat.repl con ++ reSub pat rem := by
  have hlt := runMatch_rem_lt pat.toks hn (c :: t) con rem h
  show substFuel pat (c :: t).length (c :: t) = _
  simp only [List.length_cons, substFuel, h]
  rw [substFuel_eq_of_le pat hn t.length rem.length rem (by simp at hlt; omega) le_rfl]
  rfl

theorem reSub_nomatch (pat : RePat) {c : Char} {t : List Char}
    (h : runMatch pat.toks (c :: t) = none) :
    reSub pat (c :: t) = c :: reSub pat t := by
  show substFuel pat (c :: t).length (c :: t) = _
  simp only [List.length_cons, substFuel, h]
  rfl

theorem failsWithin_none :
    ∀ (a : List Char) (toks : List Tok) (z : List Char),
      failsWithin toks a = true → runMatch toks (a ++ z) = none := by
  intro a
  induction a with
  | nil => intro toks z h; simp [failsWithin] at h
  | cons c t ih =>
    intro toks z h
    simp only [failsWithin] at h
    simp only [List.cons_append, runMatch]
    cases hm : mstep toks c with
    | fail => rfl
    | done => rw [hm] at h; simp at h
    | cont toks2 =>
      cases toks2 with
      | nil => rw [hm] at h; simp at h
      | cons a2 b2 =>
        rw [hm] at h
        simp only [] at h
        simp [ih (a2 :: b2) z h]

theorem self_mem_tokStates :
    ∀ (T : List Tok), noEmptyLit T = true → T ∈ tokStates T := by
  intro T h
  cases T with
  | nil => simp [tokStates]
  | cons tk rest =>
    cases tk with
    | lit cs =>
      cases cs with
      | nil => simp [noEmptyLit] at h
      | cons x l =>
        simp only [tokStates]
        apply List.mem_append_left
        apply List.mem_map.mpr
        exact ⟨0, by simp, by simp⟩
    | star p => simp [tokStates]
    | plus p => simp [tokStates]

theorem noEmptyLit_states :
    ∀ (T σ : List Tok), noEmptyLit T = true → σ ∈ tokStates T →
      noEmptyLit σ = true := by
  intro T
  induction T with
  | nil =>
    intro σ h hσ
    simp [tokStates] at hσ
    subst hσ
    rfl
  | cons tk rest ih =>
    intro σ h hσ
    cases tk with
    | lit cs =>
      cases cs with
      | nil => simp [noEmptyLit] at h
      | cons x l =>
        have hrest : noEmptyLit rest = true := h
        simp only [tokStates, List.mem_append] at hσ
        cases hσ with
        | inl h2 =>
          rcases List.mem_map.mp h2 with ⟨j, hj, hfj⟩
          subst hfj
          simp only [List.mem_range] at hj
          cases hd : (x :: l).drop j with
          | nil =>
            exfalso
            have := List.drop_eq_nil_iff.mp hd
            simp at this hj
            omega
          | cons y ys =>
            exact hrest
        | inr h2 => exact ih σ hrest h2
    | star p =>
      have hrest : noEmptyLit rest = true := h
      simp only [tokStates, List.mem_cons] at hσ
      cases hσ with
      | inl h2 => subst h2; exact h
      | inr h2 => exact ih σ hrest h2
    | plus p =>
      have hrest : noEmptyLit rest = true := h
      simp only [tokStates, List.mem_cons] at hσ
      rcases hσ with h2 | h2 | h2
      · subst h2; exact h
      · subst h2; exact hrest
      · exact ih σ hrest h2

theorem mstep_cont_mem :
    ∀ (σ : List Tok) (c : Char) (σ2 : List Tok), noEmptyLit σ = true →
      mstep σ c = .cont σ2 → σ2 ∈ tokStates σ := by
  intro σ
  induction σ with
  | nil => intro c σ2 _ h; simp [mstep] at h
  | cons tk rest ih =>
    intro c σ2 hwf h
    cases tk with
    | lit cs =>
      cases cs with
      | nil => simp [noEmptyLit] at hwf
      | cons x l =>
        have hrest : noEmptyLit rest = true := hwf
        simp only [mstep] at h
        by_cases hx : x = c
        · rw [if_pos hx] at h
          by_cases hl : l = []
          · subst hl
            simp at h
            subst h
            exact List.mem_append_right _ (self_mem_tokStates rest hrest)
          · rw [if_neg (by simpa using hl)] at h
            cases h
            apply List.mem_append_left
            apply List.mem_map.mpr
            refine ⟨1, ?_, ?_⟩
            · simp [List.mem_range]
              cases l with
              | nil => exact absurd rfl hl
              | cons _ _ => simp
            · simp
        · rw [if_neg hx] at h
          cases h
    | star p =>
      have hrest : noEmptyLit rest = true := hwf
      simp only [mstep] at h
      by_cases hp : p c
      · rw [if_pos hp] at h
        cases h
        exact List.mem_cons_self _ _
      · rw [if_neg hp] at h
        exact List.mem_cons_of_mem _ (ih c σ2 hrest h)
    | plus p =>
      simp only [mstep] at h
      by_cases hp : p c
      · rw [if_pos hp] at h
        cases h
        exact List.mem_cons_of_mem _ (List.mem_cons_self _ _)
      · rw [if_neg hp] at h
        cases h

theorem tokStates_sub :
    ∀ (T σ : List Tok), σ ∈ tokStates T → ∀ τ ∈ tokStates σ, τ ∈ tokStates T := by
  intro T
  induction T with
  | nil =>
    intro σ hσ τ hτ
    simp [tokStates] at hσ
    subst hσ
    exact hτ
  | cons tk rest ih =>
    intro σ hσ τ hτ
    cases tk with
    | lit cs =>
      simp only [tokStates, List.mem_append] at hσ
      cases hσ with
      | inl h =>
        rcases List.mem_map.mp h with ⟨j, hj, hfj⟩
        subst hfj
        simp only [tokStates, List.mem_append] at hτ
        cases hτ with
        | inl h2 =>
          rcases List.mem_map.mp h2 with ⟨i, hi, hfi⟩
          subst hfi
          apply List.mem_append_left
          apply List.mem_map.mpr
          refine ⟨j + i, ?_, ?_⟩
          · simp only [List.mem_range] at hj hi ⊢
            simp only [List.length_drop] at hi
            omega
          · simp [List.drop_drop, Nat.add_comm]
        | inr h2 => exact List.mem_append_right _ h2
      | inr h =>
        exact List.mem_append_right _ (ih σ h τ hτ)
    | star p =>
      simp only [tokStates, List.mem_cons] at hσ
      cases hσ with
      | inl h => subst h; exact hτ
      | inr h => exact List.mem_cons_of_mem _ (ih σ h τ hτ)
    | plus p =>
      simp only [tokStates, List.mem_cons] at hσ
      rcases hσ with h | h | h
      · subst h; exact hτ
      · subst h
        simp only [tokStates, List.mem_cons] at hτ
        cases hτ with
        | inl h2 => subst h2; exact List.mem_cons_of_mem _ (List.mem_cons_self _ _)
        | inr h2 => exact List.mem_cons_of_mem _ (List.mem_cons_of_mem _ h2)
      · exact List.mem_cons_of_mem _ (List.mem_cons_of_mem _ (ih σ h τ hτ))

theorem runMatch_lift (pat : RePat) (R : List Char)
    (hrepl : ∀ con, pat.repl con = R)
    (hn2 : nullable pat.toks = false)
    (T : List Tok) (hwfT : noEmptyLit T = true)
    (hfail : ∀ σ ∈ tokStates T, σ.isEmpty = false → failsWithin σ R = true) :
    ∀ (n : Nat) (s : List Char), s.length ≤ n → ∀ σ, σ ∈ tokStates T →
      σ.isEmpty = false → runMatch σ s = none →
      runMatch σ (reSub pat s) = none := by
  intro n
  induction n with
  | zero =>
    intro s hs σ _ _ h
    have : s = [] := List.length_eq_zero.mp (Nat.le_zero.mp hs)
    subst this
    simpa [reSub_nil] using h
  | succ n ih =>
    intro s hs σ hσ hne h
    cases s with
    | nil => simpa [reSub_nil] using h
    | cons c t =>
      cases hm : runMatch pat.toks (c :: t) with
      | some p =>
        rcases p with ⟨con, rem⟩
        rw [reSub_match pat hn2 hm, hrepl con]
        exact failsWithin_none R σ (reSub pat rem) (hfail σ hσ hne)
      | none =>
        rw [reSub_nomatch pat hm]
        simp only [runMatch] at h ⊢
        cases hms : mstep σ c with
        | fail => rfl
        | done => rw [hms] at h; simp at h
        | cont toks2 =>
          cases toks2 with
          | nil => rw [hms] at h; simp at h
          | cons a b =>
            rw [hms] at h
            simp only [] at h ⊢
            have h2 : runMatch (a :: b) t = none := by
              cases h3 : runMatch (a :: b) t with
              | none => rfl
              | some p => rw [h3] at h; simp at h
            have hmem : (a :: b) ∈ tokStates T :=
              tokStates_sub T σ hσ _
                (mstep_cont_mem σ c (a :: b) (noEmptyLit_states T σ hwfT hσ) hms)
            have h4 := ih t (by simp at hs; omega) (a :: b) hmem rfl h2
            simp [h4]

theorem freeT_suffix {toks : List Tok} {t u : List Char}
    (h : FreeT toks t) (hu : u <:+ t) : FreeT toks u :=
  fun v hv => h v (hv.trans hu)

theorem suffix_append_cases {u A B : List Char} (h : u <:+ A ++ B) :
    u <:+ B ∨ ∃ i, i < A.length ∧ u = A.drop i ++ B := by
  obtain ⟨w, hw⟩ := h
  have hu : u = (A ++ B).drop w.length := by
    rw [← hw, List.drop_left]
  by_cases hlen : A.length ≤ w.length
  · left
    rw [hu, show w.length = A.length + (w.length - A.length) by omega,
      List.drop_append]
    exact List.drop_suffix _ _
  · right
    refine ⟨w.length, by omega, ?_⟩
    rw [hu, List.drop_append_of_le_length (by omega)]

theorem freeT_reSub_self (pat : RePat) (R : List Char)
    (hrepl : ∀ con, pat.repl con = R)
    (hn : nullable pat.toks = false)
    (hwf : noEmptyLit pat.toks = true)
    (hfail : ∀ σ ∈ tokStates pat.toks, σ.isEmpty = false → failsWithin σ R = true)
    (hdrop : ∀ i, i < R.length → failsWithin pat.toks (R.drop i) = true) :
    ∀ (n : Nat) (s : List Char), s.length ≤ n → FreeT pat.toks (reSub pat s) := by
  intro n
  induction n with
  | zero =>
    intro s hs
    have : s = [] := List.length_eq_zero.mp (Nat.le_zero.mp hs)
    subst this
    intro u hu
    rw [reSub_nil] at hu
    have hu2 : u = [] := List.suffix_nil.mp hu
    subst hu2
    exact runMatch_nil_none pat.toks hn
  | succ n ih =>
    intro s hs
    cases s with
    | nil =>
      intro u hu
      rw [reSub_nil] at hu
      have hu2 : u = [] := List.suffix_nil.mp hu
      subst hu2
      exact runMatch_nil_none pat.toks hn
    | cons c t =>
      cases hm : runMatch pat.toks (c :: t) with
      | some p =>
        rcases p with ⟨con, rem⟩
        rw [reSub_match pat hn hm, hrepl con]
        intro u hu
        rcases suffix_append_cases hu with h2 | ⟨i, hi, h2⟩
        · have hrem : rem.length ≤ n := by
            have := runMatch_rem_lt pat.toks hn (c :: t) con rem hm
            simp at this hs
            omega
          exact ih rem hrem u h2
        · rw [h2]
          exact failsWithin_none _ _ _ (hdrop i hi)
      | none =>
        rw [reSub_nomatch pat hm]
        intro u hu
        rcases List.suffix_cons_iff.mp hu with h2 | h2
        · rw [h2, ← reSub_nomatch pat hm]
          exact runMatch_lift pat R hrepl hn pat.toks hwf hfail (n + 1) (c :: t) hs
            pat.toks (self_mem_tokStates pat.toks hwf)
            (by cases hh : pat.toks with
                | nil => rw [hh] at hn; simp [nullable] at hn
                | cons a b => rfl) hm
        · exact ih t (by simp at hs; omega) u h2

theorem freeT_reSub_preserve (T : List Tok) (pat : RePat) (R : List Char)
    (hrepl : ∀ con, pat.repl con = R)
    (hn : nullable pat.toks = false)
    (hnT : nullable T = false)
    (hwfT : noEmptyLit T = true)
    (hfail : ∀ σ ∈ tokStates T, σ.isEmpty = false → failsWithin σ R = true)
    (hdrop : ∀ i, i < R.length → failsWithin T (R.drop i) = true) :
    ∀ (n : Nat) (s : List Char), s.length ≤ n → FreeT T s →
      FreeT T (reSub pat s) := by
  intro n
  induction n with
  | zero =>
    intro s hs _
    have : s = [] := List.length_eq_zero.mp (Nat.le_zero.mp hs)
    subst this
    intro u hu
    rw [reSub_nil] at hu
    have hu2 : u = [] := List.suffix_nil.mp hu
    subst hu2
    exact runMatch_nil_none T hnT
  | succ n ih =>
    intro s hs hfree
    cases s with
    | nil =>
      intro u hu
      rw [reSub_nil] at hu
      have hu2 : u = [] := List.suffix_nil.mp hu
      subst hu2
      exact runMatch_nil_none T hnT
    | cons c t =>
      cases hm : runMatch pat.toks (c :: t) with
      | some p =>
        rcases p with ⟨con, rem⟩
        rw [reSub_match pat hn hm, hrepl con]
        intro u hu
        rcases suffix_append_cases hu with h2 | ⟨i, hi, h2⟩
        · have hrem : rem.length ≤ n := by
            have := runMatch_rem_lt pat.toks hn (c :: t) con rem hm
            simp at this hs
            omega
          have hsuf : rem <:+ c :: t := by
            have := runMatch_eq_append (c :: t) pat.toks con rem hm
            exact ⟨con, this.symm⟩
          exact ih rem hrem (freeT_suffix hfree hsuf) u h2
        · rw [h2]
          exact failsWithin_none _ _ _ (hdrop i hi)
      | none =>
        rw [reSub_nomatch pat hm]
        intro u hu
        rcases List.suffix_cons_iff.mp hu with h2 | h2
        · rw [h2, ← reSub_nomatch pat hm]
          exact runMatch_lift pat R hrepl hn T hwfT hfail (n + 1) (c :: t) hs
            T (self_mem_tokStates T hwfT)
            (by cases hh : T with
                | nil => rw [hh] at hnT; simp [nullable] at hnT
                | cons a b => rfl)
            (hfree (c :: t) (List.suffix_refl _))
        · exact ih t (by simp at hs; omega)
            (freeT_suffix hfree (List.suffix_cons c t)) u h2

theorem reSub_fix (pat : RePat) :
    ∀ (n : Nat) (s : List Char), s.length ≤ n → FreeT pat.toks s →
      reSub pat s = s := by
  intro n
  induction n with
  | zero =>
    intro s hs _
    have : s = [] := List.length_eq_zero.mp (Nat.le_zero.mp hs)
    subst this
    rfl
  | succ n ih =>
    intro s hs hfree
    cases s with
    | nil => rfl
    | cons c t =>
      have hm : runMatch pat.toks (c :: t) = none :=
        hfree (c :: t) (List.suffix_refl _)
      rw [reSub_nomatch pat hm]
      rw [ih t (by simp at hs; omega) (freeT_suffix hfree (List.suffix_cons c t))]

/-!
## Freeness facts for the `1.0.0 → 1.1.0` migration patterns

The finite side conditions — every (proper, nonempty) matcher state of the
pattern fails on a definite mismatch inside the replacement text, wherever
the replacement is entered — are discharged by computation.
-/

theorem pat1_self_free (s : List Char) : FreeT pat1.toks (reSub pat1 s) :=
  freeT_reSub_self pat1 repl1 (fun _ => rfl) (by decide) (by decide)
    (by decide) (by decide) s.length s le_rfl

theorem pat2_self_free (s : List Char) : FreeT pat2.toks (reSub pat2 s) :=
  freeT_reSub_self pat2 repl2 (fun _ => rfl) (by decide) (by decide)
    (by decide) (by decide) s.length s le_rfl

theorem pat1_free_after_pat2 {t : List Char} (h : FreeT pat1.toks t) :
    FreeT pat1.toks (reSub pat2 t) :=
  freeT_reSub_preserve pat1.toks pat2 repl2 (fun _ => rfl) (by decide)
    (by decide) (by decide) (by decide) (by decide) t.length t le_rfl h

/-- Core idempotence of the `1.0.0 → 1.1.0` migration on file content: after
one pass of step `update_process_method` followed by step
`add_user_id_param`, neither step changes the content again. -/
theorem mig1_content_idem (s : List Char) :
    reSub pat1 (reSub pat2 (reSub pat1 s)) = reSub pat2 (reSub pat1 s) ∧
    reSub pat2 (reSub pat2 (reSub pat1 s)) = reSub pat2 (reSub pat1 s) :=
  ⟨reSub_fix pat1 _ _ le_rfl (pat1_free_after_pat2 (pat1_self_free s)),
   reSub_fix pat2 _ _ le_rfl (pat2_self_free (reSub pat1 s))⟩

/-!
## Evaluation lemmas for `apply_migration`
-/

theorem globFiles_mainPy (fs : FS) :
    globFiles (("app/main.py").data) fs =
      if fs.mainPy.isSome then [AgentFile.mainPy] else [] := by
  cases fs with
  | mk m r l cl => cases m <;> rfl

theorem fs_set_mainPy_self (fs : FS) (s : List Char) (h : fs.mainPy = some s) :
    fs.set .mainPy (some s) = fs := by
  cases fs with
  | mk m r l cl =>
    simp only [FS.set]
    rw [show m = some s from h]

theorem rollback_migration_self (fs : FS) : rollback_migration fs fs = fs := by
  cases fs with
  | mk m r l cl =>
    simp [rollback_migration, Option.or_self]

theorem apply_step_mainPy_none (step : MigrationStep)
    (hpat : step.file_pattern = ("app/main.py").data)
    (fs : FS) (h : fs.mainPy = none) :
    apply_migration_step step fs =
      ((false, ("No files found matching pattern: ").data ++ step.file_pattern),
       fs) := by
  unfold apply_migration_step
  rw [hpat, globFiles_mainPy, h]
  rfl

theorem apply_step_mainPy_some (step : MigrationStep)
    (hpat : step.file_pattern = ("app/main.py").data)
    (fs : FS) (s : List Char) (h : fs.mainPy = some s) :
    apply_migration_step step fs =
      ((true, if reSub step.search s = s then noChangesMsg else modifiedMainPyMsg),
       fs.set .mainPy (some (reSub step.search s))) := by
  unfold apply_migration_step
  rw [hpat, globFiles_mainPy, h]
  simp only [Option.isSome_some, if_true, List.isEmpty_cons, Bool.false_eq_true,
    List.foldl_cons, List.foldl_nil]
  rw [show (FS.get fs AgentFile.mainPy) = some s from h]
  simp only []
  by_cases hc : reSub step.search s = s
  · rw [if_pos hc, if_pos hc]
    simp only [if_true, if_false, List.isEmpty_nil]
    rw [hc, fs_set_mainPy_self fs s h]
  · rw [if_neg hc, if_neg hc]
    simp only [if_true, if_false, List.isEmpty_cons, Bool.false_eq_true]
    rfl


theorem apply_migration_two_steps
    (cur tgt : List Char) (m : FrameworkMigration)
    (hfind : find_migration cur tgt = some m)
    (st1 st2 : MigrationStep)
    (hsteps : m.migration_steps = [st1, st2])
    (hp1 : st1.file_pattern = ("app/main.py").data)
    (hp2 : st2.file_pattern = ("app/main.py").data)
    (hr1 : st1.required = true)
    (fs : FS) :
    apply_migration cur tgt fs =
      match fs.mainPy with
      | none =>
        ({ success := false
           migration_required := true
           error := some ((("Required migration step failed: ").data)
             ++ st1.description)
           failed_step := some st1.name
           rollback_performed := some true }, fs)
      | some s =>
        ({ success := true
           migration_required := true
           message := some ((("Migration ").data ++ cur ++ (" → ").data ++ tgt
             ++ (" completed successfully").data))
           breaking_changes := some m.breaking_changes
           changes_applied := some
             [⟨st1.name, st1.description,
               if reSub st1.search s = s then noChangesMsg else modifiedMainPyMsg⟩,
              ⟨st2.name, st2.description,
               if reSub st2.search (reSub st1.search s) = reSub st1.search s
               then noChangesMsg else modifiedMainPyMsg⟩]
           failed_steps := some [] },
         (fs.set .mainPy (some (reSub st1.search s))).set .mainPy
           (some (reSub st2.search (reSub st1.search s)))) := by
  unfold apply_migration
  rw [hfind]
  simp only [hsteps, List.isEmpty_cons, Bool.false_eq_true, if_false]
  cases hfs : fs.mainPy with
  | none =>
    simp only [runSteps, apply_step_mainPy_none st1 hp1 fs hfs]
    rw [hr1]
    simp only [Bool.false_eq_true, if_false, if_true, create_migration_backup]
    rw [rollback_migration_self]
  | some s =>
    have hget2 : (fs.set .mainPy (some (reSub st1.search s))).mainPy
        = some (reSub st1.search s) := by
      cases fs with
      | mk a b c d => rfl
    simp only [runSteps, apply_step_mainPy_some st1 hp1 fs s hfs,
      apply_step_mainPy_some st2 hp2 _ _ hget2, if_true]
    rfl

theorem fs_set_set_mainPy (fs : FS) (a b : Option (List Char)) :
    (fs.set .mainPy a).set .mainPy b = fs.set .mainPy b := by
  cases fs with
  | mk m r l cl => rfl

/-- C2 (amended): the claim's idempotence holds for the `1.0.0 → 1.1.0`
migration — a second application leaves every file unchanged, succeeds, and
reports "no changes needed" for both steps — and trivially for the
zero-step `1.1.0 → 1.2.0` migration; it does not hold for the
`1.2.0 → 1.3.0` migration (see the counterexample). -/
theorem claim_C2 :
    (∀ fs : FS,
      (apply_migration (("1.0.0").data) (("1.1.0").data) fs).1.success = true →
      (apply_migration (("1.0.0").data) (("1.1.0").data)
          (apply_migration (("1.0.0").data) (("1.1.0").data) fs).2).2 =
        (apply_migration (("1.0.0").data) (("1.1.0").data) fs).2 ∧
      (apply_migration (("1.0.0").data) (("1.1.0").data)
          (apply_migration (("1.0.0").data) (("1.1.0").data) fs).2).1.success = true ∧
      (apply_migration (("1.0.0").data) (("1.1.0").data)
          (apply_migration (("1.0.0").data) (("1.1.0").data) fs).2).1.changes_applied =
        some [⟨("update_process_method").data,
               ("Rename process() to process_message()").data, noChangesMsg⟩,
              ⟨("add_user_id_param").data,
               ("Add user_id parameter to process_message()").data, noChangesMsg⟩]) ∧
    (∀ fs : FS,
      apply_migration (("1.1.0").data) (("1.2.0").data) fs =
        ({ success := true
           migration_required := false
           message := some ((("Version ").data ++ ("1.2.0").data
             ++ (" has new features but no code changes required").data))
           changelog := some migration_1_1_0_to_1_2_0.changelog
           breaking_changes := some migration_1_1_0_to_1_2_0.breaking_changes }, fs)) := by
  constructor
  · intro fs hs
    have hM := apply_migration_two_steps (("1.0.0").data) (("1.1.0").data)
      migration_1_0_0_to_1_1_0 rfl _ _ rfl rfl rfl rfl fs
    cases hfs : fs.mainPy with
    | none =>
      rw [hfs] at hM
      simp only [] at hM
      rw [hM] at hs
      simp at hs
    | some s =>
      rw [hfs] at hM
      simp only [] at hM
      rw [hM]
      have hidem := mig1_content_idem s
      have hfs2 : ((fs.set .mainPy (some (reSub pat1 s))).set .mainPy
          (some (reSub pat2 (reSub pat1 s)))).mainPy
          = some (reSub pat2 (reSub pat1 s)) := by
        cases fs with
        | mk a b c d => rfl
      have hM2 := apply_migration_two_steps (("1.0.0").data) (("1.1.0").data)
        migration_1_0_0_to_1_1_0 rfl _ _ rfl rfl rfl rfl
        ((fs.set .mainPy (some (reSub pat1 s))).set .mainPy
          (some (reSub pat2 (reSub pat1 s))))
      rw [hfs2] at hM2
      simp only [] at hM2
      rw [hM2]
      rw [hidem.1]
      rw [hidem.2]
      refine ⟨?_, rfl, by simp⟩
      rw [fs_set_set_mainPy, fs_set_set_mainPy]
  · intro fs
    rfl

/-- C2, counterexample to the claim as stated: for the catalog migration
`1.2.0 → 1.3.0`, a second application to a tree on which it was already
successfully applied changes `app/main.py` again (`port=(\d+)` re-matches
inside the rewritten `server_port=5500`, producing `server_server_port=5500`),
so the second application does not leave the content identical. -/
theorem claim_C2_counterexample :
    (apply_migration (("1.2.0").data) (("1.3.0").data)
        ⟨some (("    port=5500,\n").data), none, none, none⟩).1.success = true ∧
    (apply_migration (("1.2.0").data) (("1.3.0").data)
        (apply_migration (("1.2.0").data) (("1.3.0").data)
          ⟨some (("    port=5500,\n").data), none, none, none⟩).2).2.mainPy ≠
      (apply_migration (("1.2.0").data) (("1.3.0").data)
          ⟨some (("    port=5500,\n").data), none, none, none⟩).2.mainPy := by
  constructor
  · decide
  · decide

/-- C3: for every catalog migration with a required step whose glob matches
zero files, `apply_migration` fails with `rollback_performed = true` and
every file in the migration backup is restored byte-for-byte. -/
theorem claim_C3 :
    ∀ m ∈ migrations, ∀ fs : FS,
      (∃ st ∈ m.migration_steps, st.required = true ∧
        globFiles st.file_pattern fs = []) →
      (apply_migration m.from_version m.to_version fs).1.success = false ∧
      (apply_migration m.from_version m.to_version fs).1.rollback_performed
        = some true ∧
      ∀ f : AgentFile, ((create_migration_backup fs).get f).isSome = true →
        (apply_migration m.from_version m.to_version fs).2.get f
          = (create_migration_backup fs).get f := by
  intro m hm fs hex
  have hmain : ∀ (st : MigrationStep), st.file_pattern = ("app/main.py").data →
      globFiles st.file_pattern fs = [] → fs.mainPy = none := by
    intro st hp hg
    rw [hp, globFiles_mainPy] at hg
    cases hmp : fs.mainPy with
    | none => rfl
    | some c => rw [hmp] at hg; simp at hg
  simp only [migrations, List.mem_cons] at hm
  rcases hm with rfl | rfl | rfl | hm0
  rotate_right
  · simp at hm0
  · rcases hex with ⟨st, hst, _, hg⟩
    have hfs : fs.mainPy = none := by
      simp only [migration_1_0_0_to_1_1_0, List.mem_cons, List.mem_singleton] at hst
      rcases hst with rfl | rfl | h
      · exact hmain _ rfl hg
      · exact hmain _ rfl hg
      · simp at h
    have hM := apply_migration_two_steps (("1.0.0").data) (("1.1.0").data)
      migration_1_0_0_to_1_1_0 rfl _ _ rfl rfl rfl rfl fs
    rw [hfs] at hM
    simp only [] at hM
    rw [show migration_1_0_0_to_1_1_0.from_version = ("1.0.0").data from rfl,
      show migration_1_0_0_to_1_1_0.to_version = ("1.1.0").data from rfl, hM]
    exact ⟨rfl, rfl, fun f _ => rfl⟩
  · rcases hex with ⟨st, hst, _⟩
    simp [migration_1_1_0_to_1_2_0] at hst
  · rcases hex with ⟨st, hst, _, hg⟩
    have hfs : fs.mainPy = none := by
      simp only [migration_1_2_0_to_1_3_0, List.mem_cons, List.mem_singleton] at hst
      rcases hst with rfl | rfl | h
      · exact hmain _ rfl hg
      · exact hmain _ rfl hg
      · simp at h
    have hM := apply_migration_two_steps (("1.2.0").data) (("1.3.0").data)
      migration_1_2_0_to_1_3_0 rfl _ _ rfl rfl rfl rfl fs
    rw [hfs] at hM
    simp only [] at hM
    rw [show migration_1_2_0_to_1_3_0.from_version = ("1.2.0").data from rfl,
      show migration_1_2_0_to_1_3_0.to_version = ("1.3.0").data from rfl, hM]
    exact ⟨rfl, rfl, fun f _ => rfl⟩

/-- C2 witness: the amended idempotence theorem applied at a concrete tree
holding a pre-1.1.0 `process` signature. -/
theorem claim_C2_witness :
    (apply_migration (("1.0.0").data) (("1.1.0").data)
        (apply_migration (("1.0.0").data) (("1.1.0").data)
          ⟨some (("async def process(self, message: str, context: Dict[str, Any])").data),
           none, none, none⟩).2).1.success = true :=
  (claim_C2.1 _ (by decide)).2.1

/-- C3 witness: the rollback theorem applied to the `1.0.0 → 1.1.0`
migration on a tree with no `app/main.py`. -/
theorem claim_C3_witness :
    (apply_migration migration_1_0_0_to_1_1_0.from_version
        migration_1_0_0_to_1_1_0.to_version
        ⟨none, some (("x").data), none, none⟩).1.rollback_performed
      = some true :=
  (claim_C3 migration_1_0_0_to_1_1_0 (by simp [migrations])
    ⟨none, some (("x").data), none, none⟩
    ⟨_, List.mem_cons_self _ _, rfl, by decide⟩).2.1

theorem update_requirements_none (tag : List Char) (fs : FS)
    (h : fs.requirementsTxt = none) :
    update_requirements_file tag fs =
      .error (("requirements.txt not found").data) := by
  unfold update_requirements_file
  rw [h]

theorem update_requirements_noline (tag : List Char) (fs : FS)
    (content : List Char) (h : fs.requirementsTxt = some content)
    (hl : ∀ line ∈ splitNl content, containsSub line fwkGitMarker = false) :
    update_requirements_file tag fs =
      .error (("Framework line not found in requirements.txt").data) := by
  unfold update_requirements_file
  rw [h]
  simp only []
  have hcond : ¬((splitNl content).any
      (fun line => containsSub line fwkGitMarker) = true) := by
    rw [List.any_eq_true]
    rintro ⟨line, hline, hcon⟩
    rw [hl line hline] at hcon
    cases hcon
  rw [if_neg hcond]

theorem update_requirements_ok (tag : List Char) (fs : FS)
    (content : List Char) (h : fs.requirementsTxt = some content)
    (hl : (splitNl content).any (fun line => containsSub line fwkGitMarker) = true) :
    update_requirements_file tag fs =
      .ok (fs.set .requirementsTxt (some (joinNl ((splitNl content).map (fun line =>
        if containsSub line fwkGitMarker then newFwkLine tag else line))))) := by
  unfold update_requirements_file
  rw [h]
  simp only [hl, if_true]

/-- C1 (amended): when the dependency manifest is absent, or present without
a framework line, `update_framework` does not propagate the
FileNotFoundError / ValueError: its outer `except` catches it, attempts a
rollback from the pre-update backup (whose reinstall succeeds iff pip does)
and absorbs the failure into a returned `UpdateResult` with
`success = false` and the error text in `error_message`. -/
theorem claim_C1 :
    ∀ (w : World) (target_version : List Char) (run_tests : Bool),
      (w.fs.requirementsTxt = none →
        (update_framework target_version run_tests w).1.success = false ∧
        (update_framework target_version run_tests w).1.error_message =
          some (("requirements.txt not found").data) ∧
        (update_framework target_version run_tests w).1.rollback_available
          = w.pipOk) ∧
      (∀ content, w.fs.requirementsTxt = some content →
        (∀ line ∈ splitNl content, containsSub line fwkGitMarker = false) →
        (update_framework target_version run_tests w).1.success = false ∧
        (update_framework target_version run_tests w).1.error_message =
          some (("Framework line not found in requirements.txt").data) ∧
        (update_framework target_version run_tests w).1.rollback_available
          = w.pipOk) := by
  intro w target_version run_tests
  constructor
  · intro h
    simp only [update_framework]
    rw [update_requirements_none _ w.fs h]
    exact ⟨rfl, rfl, rfl⟩
  · intro content h hl
    simp only [update_framework]
    rw [update_requirements_noline _ w.fs content h hl]
    exact ⟨rfl, rfl, rfl⟩

/-- C1 witness: the amended theorem applied to a concrete world with no
`requirements.txt`. -/
theorem claim_C1_witness :
    (update_framework (("1.1.0").data) true
        ⟨⟨none, none, none, none⟩, true, [], true⟩).1.error_message =
      some (("requirements.txt not found").data) :=
  ((claim_C1 ⟨⟨none, none, none, none⟩, true, [], true⟩
    (("1.1.0").data) true).1 rfl).2.1

/-- C1, counterexample to the claim as stated: with the manifest absent
(respectively present without any `hg-agent-fwk.git` line), the operation
returns an `UpdateResult` — the failure is absorbed, not propagated: the
result carries `success = false` and the error text inside the object. -/
theorem claim_C1_counterexample :
    (update_framework (("1.1.0").data) true
        ⟨⟨none, none, none, none⟩, true, [], true⟩).1 =
      { success := false
        from_version := ("1.0.0").data
        to_version := ("1.1.0").data
        rollback_available := true
        error_message := some (("requirements.txt not found").data) } ∧
    (update_framework (("1.1.0").data) true
        ⟨⟨none, some (("requests\n").data), none, none⟩, true, [], true⟩).1 =
      { success := false
        from_version := ("1.0.0").data
        to_version := ("1.1.0").data
        rollback_available := true
        error_message :=
          some (("Framework line not found in requirements.txt").data) } := by
  exact ⟨by decide, by decide⟩

/-- C9: in the `1.0.0 → 1.1.0` update flow with failing post-update tests,
the pre-update backup covers only `requirements.txt` and `framework.lock`,
so the automatic rollback restores exactly those two (plus a reinstall)
while `app/main.py` keeps the migrated content; the returned `UpdateResult`
still reports the update failed and rolled back. -/
theorem claim_C9 :
    ∀ (mp req pipErr : List Char),
      (splitNl req).any (fun line => containsSub line fwkGitMarker) = true →
      (update_framework (("1.1.0").data) true
          ⟨⟨some mp, some req, some (("v1.0.0\n").data), none⟩,
           true, pipErr, false⟩).1.success = false ∧
      (update_framework (("1.1.0").data) true
          ⟨⟨some mp, some req, some (("v1.0.0\n").data), none⟩,
           true, pipErr, false⟩).1.rollback_available = true ∧
      (update_framework (("1.1.0").data) true
          ⟨⟨some mp, some req, some (("v1.0.0\n").data), none⟩,
           true, pipErr, false⟩).1.error_message =
        some (("Tests failed after update, automatically rolled back").data) ∧
      (update_framework (("1.1.0").data) true
          ⟨⟨some mp, some req, some (("v1.0.0\n").data), none⟩,
           true, pipErr, false⟩).2.mainPy = some (reSub pat2 (reSub pat1 mp)) ∧
      (update_framework (("1.1.0").data) true
          ⟨⟨some mp, some req, some (("v1.0.0\n").data), none⟩,
           true, pipErr, false⟩).2.requirementsTxt = some req ∧
      (update_framework (("1.1.0").data) true
          ⟨⟨some mp, some req, some (("v1.0.0\n").data), none⟩,
           true, pipErr, false⟩).2.frameworkLock = some (("v1.0.0\n").data) := by
  intro mp req pipErr hreq
  simp only [update_framework]
  rw [update_requirements_ok _ ⟨some mp, some req, some (("v1.0.0\n").data), none⟩
    req rfl hreq]
  simp only []
  rw [apply_migration_two_steps
    (getCurrentVersionFS ⟨some mp, some req, some (("v1.0.0\n").data), none⟩)
    (lstripV (("1.1.0").data)) migration_1_0_0_to_1_1_0 rfl _ _ rfl rfl rfl rfl _]
  exact ⟨rfl, rfl, rfl, rfl, rfl, rfl⟩

/-- C9 witness: the theorem applied at a concrete pre-1.1.0 agent tree
whose manifest pins the framework. -/
theorem claim_C9_witness :
    (update_framework (("1.1.0").data) true
        ⟨⟨some (("async def process(self, message: str, context: Dict[str, Any])").data),
          some (("git+https://github.com/Holy-Bird-Animation-Studio/hg-agent-fwk.git@v1.0.0").data),
          some (("v1.0.0\n").data), none⟩,
         true, [], false⟩).1.success = false :=
  (claim_C9 (("async def process(self, message: str, context: Dict[str, Any])").data)
    (("git+https://github.com/Holy-Bird-Animation-Studio/hg-agent-fwk.git@v1.0.0").data)
    [] (by decide)).1

theorem strLt_irrefl : ∀ (a : List Char), strLt a a = false := by
  intro a
  induction a with
  | nil => rfl
  | cons c t ih => simp [strLt, ih]

theorem strLt_trans : ∀ (a b c : List Char),
    strLt a b = true → strLt b c = true → strLt a c = true := by
  intro a
  induction a with
  | nil =>
    intro b c hab hbc
    cases b with
    | nil => simp [strLt] at hab
    | cons y t =>
      cases c with
      | nil => simp [strLt] at hbc
      | cons z u => rfl
  | cons x s ih =>
    intro b c hab hbc
    cases b with
    | nil => simp [strLt] at hab
    | cons y t =>
      cases c with
      | nil => simp [strLt] at hbc
      | cons z u =>
        simp only [strLt] at hab hbc ⊢
        by_cases hxy : x = y
        · subst hxy
          rw [if_pos rfl] at hab
          by_cases hxz : x = z
          · subst hxz
            rw [if_pos rfl] at hbc ⊢
            exact ih t u hab hbc
          · rw [if_neg hxz] at hbc ⊢
            exact hbc
        · rw [if_neg hxy] at hab
          simp only [decide_eq_true_eq] at hab
          by_cases hyz : y = z
          · subst hyz
            rw [if_neg hxy]
            simp [hab]
          · rw [if_neg hyz] at hbc
            simp only [decide_eq_true_eq] at hbc
            have hxz2 : x < z := lt_trans hab hbc
            have hxz3 : ¬ x = z := by
              intro he
              rw [he] at hxz2
              exact lt_irrefl z hxz2
            rw [if_neg hxz3]
            simp [hxz2]

theorem strLt_asymm {a b : List Char} (h : strLt a b = true) :
    strLt b a = false := by
  cases hba : strLt b a with
  | false => rfl
  | true => rw [← strLt_irrefl a, strLt_trans a b a h hba]

theorem strLt_conn : ∀ (a b : List Char),
    strLt a b = false → strLt b a = false → a = b := by
  intro a
  induction a with
  | nil =>
    intro b hab _
    cases b with
    | nil => rfl
    | cons y t => simp [strLt] at hab
  | cons x s ih =>
    intro b hab hba
    cases b with
    | nil => simp [strLt] at hba
    | cons y t =>
      simp only [strLt] at hab hba
      by_cases hxy : x = y
      · subst hxy
        rw [if_pos rfl] at hab hba
        rw [ih t hab hba]
      · rw [if_neg hxy] at hab
        rw [if_neg (fun he => hxy he.symm)] at hba
        simp only [decide_eq_false_iff_not] at hab hba
        rcases lt_trichotomy x y with h | h | h
        · exact absurd h hab
        · exact absurd h hxy
        · exact absurd h hba

theorem notLt_trans {a b c : List Char}
    (h1 : strLt a b = false) (h2 : strLt b c = false) : strLt a c = false := by
  cases hac : strLt a c with
  | false => rfl
  | true =>
    cases hba : strLt b a with
    | true =>
      rw [← h2, strLt_trans b a c hba hac]
    | false =>
      have : a = b := strLt_conn a b h1 hba
      rw [← h2, ← this, hac]

theorem mem_insertDescV {x e : FrameworkVersion} :
    ∀ {l : List FrameworkVersion}, e ∈ insertDescV x l ↔ e = x ∨ e ∈ l := by
  intro l
  induction l with
  | nil => simp [insertDescV]
  | cons y ys ih =>
    simp only [insertDescV]
    by_cases hxy : strLt x.version y.version = true
    · rw [if_pos hxy]
      simp only [List.mem_cons, ih]
      tauto
    · rw [if_neg hxy]
      simp only [List.mem_cons]

theorem pairwise_insertDescV (x : FrameworkVersion)
    (l : List FrameworkVersion)
    (h : l.Pairwise (fun a b => strLt a.version b.version = false)) :
    (insertDescV x l).Pairwise
      (fun a b => strLt a.version b.version = false) := by
  induction l with
  | nil => simp [insertDescV]
  | cons y ys ih =>
    rcases List.pairwise_cons.mp h with ⟨hy, hys⟩
    simp only [insertDescV]
    by_cases hxy : strLt x.version y.version = true
    · rw [if_pos hxy]
      apply List.pairwise_cons.mpr
      refine ⟨?_, ih hys⟩
      intro e he
      rcases mem_insertDescV.mp he with rfl | he2
      · exact strLt_asymm hxy
      · exact hy e he2
    · rw [if_neg hxy]
      apply List.pairwise_cons.mpr
      refine ⟨?_, h⟩
      intro e he
      rcases List.mem_cons.mp he with rfl | he2
      · exact Bool.eq_false_iff.mpr (fun hc => hxy hc)
      · exact notLt_trans (Bool.eq_false_iff.mpr (fun hc => hxy hc)) (hy e he2)

theorem pairwise_sortDescV (l : List FrameworkVersion) :
    (sortDescV l).Pairwise (fun a b => strLt a.version b.version = false) := by
  induction l with
  | nil => simp [sortDescV]
  | cons x xs ih => exact pairwise_insertDescV x _ ih

/-- C4: `get_available_versions` sorts by the `version` string, descending,
under plain string comparison: every earlier entry's version string is ≥
every later one's lexicographically; in particular a tag set holding both
`1.9.0` and `1.10.0` yields `1.9.0` first. -/
theorem claim_C4 :
    (∀ (tags : List (List Char)) (relInfo : List Char → Option RelInfo),
      (get_available_versions tags relInfo).Pairwise
        (fun a b => strLt a.version b.version = false)) ∧
    (get_available_versions [("v1.9.0").data, ("v1.10.0").data]
        (fun _ => none)).map (fun v => v.version) =
      [("1.9.0").data, ("1.10.0").data] := by
  constructor
  · intro tags relInfo
    exact pairwise_sortDescV _
  · rfl

theorem head_dropWhile_not (p : Char → Bool) :
    ∀ (l : List Char) (c : Char), (l.dropWhile p).head? = some c →
      p c = false := by
  intro l
  induction l with
  | nil => intro c h; simp [List.dropWhile] at h
  | cons x t ih =>
    intro c h
    by_cases hp : p x
    · rw [List.dropWhile_cons_of_pos hp] at h
      exact ih c h
    · rw [List.dropWhile_cons_of_neg hp] at h
      simp at h
      rw [← h]
      exact Bool.eq_false_iff.mpr hp

/-- C7: `get_current_version` is total by construction and returns the lock
content with surrounding whitespace and leading `v`s stripped when the lock
file is readable (so the result never starts with `'v'`), the default
`1.0.0` when the file is absent, and the literal `unknown` when reading
fails for any other reason; a lock holding `"v1.2.0\n"` yields `"1.2.0"`. -/
theorem claim_C7 :
    (∀ content, get_current_version (.readable content)
      = lstripV (stripWS content)) ∧
    get_current_version .absent = ("1.0.0").data ∧
    get_current_version .unreadable = ("unknown").data ∧
    (∀ content c,
      (get_current_version (.readable content)).head? = some c → c ≠ 'v') ∧
    get_current_version (.readable (("v1.2.0\n").data)) = ("1.2.0").data := by
  refine ⟨fun _ => rfl, rfl, rfl, ?_, by decide⟩
  intro content c hc
  intro he
  subst he
  have h2 := head_dropWhile_not (fun c => c = 'v') (stripWS content) 'v' hc
  simp at h2

/-- C8: `get_model_name` resolves (provider, tier) through the fixed model
table — (anthropic, smart) is claude-3-sonnet-20240229 and (openai,
premium) is gpt-4 — and any tier outside the table's keys falls back to
claude-3-haiku-20240307 for either provider. -/
theorem claim_C8 :
    get_model_name .anthropic (("smart").data)
      = ("claude-3-sonnet-20240229").data ∧
    get_model_name .openai (("premium").data) = ("gpt-4").data ∧
    ∀ (p : LLMProvider) (tier : List Char),
      tier ∉ [("fast").data, ("smart").data, ("premium").data] →
      get_model_name p tier = ("claude-3-haiku-20240307").data := by
  refine ⟨by decide, by decide, ?_⟩
  intro p tier htier
  simp only [List.mem_cons, not_or] at htier
  obtain ⟨h1, h2, h3, _⟩ := htier
  cases p <;>
    simp [get_model_name, modelsTable, LLMProvider.value, List.lookup,
      beq_eq_false_iff_ne.mpr h1, beq_eq_false_iff_ne.mpr h2,
      beq_eq_false_iff_ne.mpr h3]

/-- C8 witness: an unmapped tier falls back to the haiku model. -/
theorem claim_C8_witness :
    get_model_name .anthropic (("ultra").data)
      = ("claude-3-haiku-20240307").data :=
  claim_C8.2.2 .anthropic (("ultra").data) (by decide)

/-- C5: `BaseLLMAgent.process_message` returns the fixed apology naming the
agent whenever the system-prompt computation or the LLM chat call fails,
never propagating the error; the apology depends only on the agent name
(so it never carries the raw error text), and contains the name. -/
theorem claim_C5 :
    (∀ (name e : List Char) (chatOf : List Char → Except LLMErr (List Char)),
      process_message_llm name (.error e) chatOf = fallback_response name) ∧
    (∀ (name prompt : List Char)
      (chatOf : List Char → Except LLMErr (List Char)) (e : LLMErr),
      chatOf prompt = .error e →
      process_message_llm name (.ok prompt) chatOf = fallback_response name) ∧
    (∀ name : List Char, name <:+: fallback_response name) := by
  refine ⟨fun _ _ _ => rfl, ?_, ?_⟩
  · intro name prompt chatOf e h
    simp [process_message_llm, h]
  · intro name
    refine ⟨("I apologize, but I").data ++ [apos]
      ++ ("m experiencing technical difficulties. As ").data,
      (", I").data ++ [apos]
      ++ ("m temporarily unable to process your request. Please try again later.").data,
      ?_⟩
    simp [fallback_response]

/-- C5 witness: a failing chat call yields exactly the apology. -/
theorem claim_C5_witness :
    process_message_llm (("Echo Agent").data) (.ok (("p").data))
      (fun _ => .error (.wrapped (("boom").data)))
      = fallback_response (("Echo Agent").data) :=
  claim_C5.2.1 (("Echo Agent").data) (("p").data) _
    (.wrapped (("boom").data)) rfl

/-- C6: `LLMClient.chat` turns a provider call that exceeds the bound into
a Timeout-kind error whose message carries the rendered timeout value, and
wraps any other provider failure into a generic LLM error carrying the
original message. -/
theorem claim_C6 :
    (∀ ts : List Char,
      llm_chat ts .timesOut =
        .error (.timeout ((("LLM request timeout after ").data) ++ ts
          ++ ("s").data)) ∧
      ts <:+: ((("LLM request timeout after ").data) ++ ts ++ ("s").data)) ∧
    (∀ (ts e : List Char),
      llm_chat ts (.completes (.error e)) =
        .error (.wrapped ((("LLM error: ").data) ++ e)) ∧
      e <:+: ((("LLM error: ").data) ++ e)) ∧
    (∀ (ts r : List Char), llm_chat ts (.completes (.ok r)) = .ok r) := by
  refine ⟨?_, ?_, fun _ _ => rfl⟩
  · intro ts
    exact ⟨rfl, ⟨("LLM request timeout after ").data, ("s").data, by simp⟩⟩
  · intro ts e
    exact ⟨rfl, ⟨("LLM error: ").data, [], by simp⟩⟩

/-- C10: the chat handler increments the request counter by exactly one and
stamps the arrival time before consulting the `process_message` outcome, so
a failing request (surfaced as a 500 `Processing error:`) is counted and
timestamped exactly like a successful one. -/
theorem claim_C10 :
    ∀ (agentName : List Char) (st : AgentState) (now : Nat)
      (out : Except (List Char) (List Char)),
      (chat_handler agentName st now out).1.request_count
        = st.request_count + 1 ∧
      (chat_handler agentName st now out).1.last_request_time = some now ∧
      ∀ (e t : List Char),
        (chat_handler agentName st now (.error e)).1
          = (chat_handler agentName st now (.ok t)).1 ∧
        (chat_handler agentName st now (.error e)).2
          = .serverError 500 ((("Processing error: ").data) ++ e) := by
  intro an st now out
  refine ⟨?_, ?_, fun e t => ⟨rfl, rfl⟩⟩ <;> cases out <;> rfl

/-- C7 witness: the head of the stripped version string for a concrete lock
content is a non-`v` character. -/
theorem claim_C7_witness :
    (get_current_version (.readable (("v1.2.0\n").data))).head? = some '1' ∧
    ('1' : Char) ≠ 'v' :=
  ⟨by decide, claim_C7.2.2.2.1 (("v1.2.0\n").data) '1' (by decide)⟩

end Graal
